import Mathlib

/-!
Verification of the evaluation/scoring core of the match-analysis repository
(`evaluate.py`): event normalization, greedy event matching, and the derived
detection / field-accuracy / clock-accuracy / ordering / match-level metrics.

The Python code is shallowly embedded: dictionaries holding optional JSON
fields become structures of `Option`-typed fields (a key that is absent and a
key explicitly set to JSON `null` are identified), Python `float` rates are
modelled as `ℚ` (all rates produced by the code are ratios of integers), and a
Python function that can raise an uncaught exception is modelled as returning
`Option`/`none` at the faulting input.
-/

namespace MatchAnalysis

/-- First list is a leading segment of the second (character-wise equality). -/
def beginsList : List Char → List Char → Bool
  | [], _ => true
  | _ :: _, [] => false
  | a :: as, b :: bs => a = b && beginsList as bs

/-- Python `pat in s` substring containment on character lists. -/
def containsList (pat : List Char) : List Char → Bool
  | [] => beginsList pat []
  | s :: rest => beginsList pat (s :: rest) || containsList pat rest

/-- Python `str.split(sep)` with a one-character separator, keeping empty
pieces: `"8:45" ↦ ["8","45"]`, `"" ↦ [""]`, `":" ↦ ["",""]`. -/
def splitChars (p : Char → Bool) : List Char → List (List Char)
  | [] => [[]]
  | c :: rest =>
    if p c then [] :: splitChars p rest
    else
      match splitChars p rest with
      | [] => [[c]]
      | t :: ts => (c :: t) :: ts

/-- Python `str.split()` with no argument: whitespace-delimited nonempty tokens. -/
def pyTokens (s : String) : List (List Char) :=
  (splitChars Char.isWhitespace s.toList).filter (fun t => t ≠ [])

/-- Python `str.strip()`: drop leading and trailing whitespace. -/
def pyStripChars (cs : List Char) : List Char :=
  ((cs.dropWhile Char.isWhitespace).reverse.dropWhile Char.isWhitespace).reverse

/-- No two consecutive underscores (part of Python `int()` literal syntax). -/
def noDoubleU : List Char → Bool
  | '_' :: '_' :: _ => false
  | _ :: rest => noDoubleU rest
  | [] => true

/-- Digit string as accepted by Python `int()` after sign/whitespace removal:
nonempty, first and last characters are ASCII digits, every character is a
digit or an underscore, and underscores are single separators between digits. -/
def validUDigits (cs : List Char) : Bool :=
  match cs with
  | [] => false
  | c :: _ =>
    c.isDigit &&
    (match cs.getLast? with | some d => d.isDigit | none => false) &&
    cs.all (fun x => x.isDigit || x = '_') &&
    noDoubleU cs

/-- Numeric value of a digit string, ignoring underscore separators. -/
def uVal (cs : List Char) : Nat :=
  (cs.filter (fun c => c ≠ '_')).foldl (fun a c => a * 10 + (c.toNat - '0'.toNat)) 0

/-- Python `int(s)` on a string: optional surrounding whitespace, optional
sign, decimal digits with underscore separators; `none` models `ValueError`.
(Non-ASCII digits, accepted by CPython, are out of the modelled input space.) -/
def pyIntChars (s : List Char) : Option Int :=
  match pyStripChars s with
  | '+' :: rest => if validUDigits rest then some (Int.ofNat (uVal rest)) else none
  | '-' :: rest => if validUDigits rest then some (-Int.ofNat (uVal rest)) else none
  | cs => if validUDigits cs then some (Int.ofNat (uVal cs)) else none

/-- `parse_clock` (evaluate.py:205): empty string gives `None`; a string with
exactly one `:` parses as `M*60+SS`; otherwise the whole string is parsed as a
bare integer; any `ValueError` from `int()` is caught and gives `None`. -/
def parseClock (s : String) : Option Int :=
  if s = "" then none
  else
    match splitChars (fun c => c = ':') s.toList with
    | [a, b] =>
      match pyIntChars a, pyIntChars b with
      | some m, some sec => some (m * 60 + sec)
      | _, _ => none
    | _ => pyIntChars s.toList

/-- Raw value of the JSON `athlete` field: a name or numeral string, or an
integer (Python `str`/`int`; cross-type `==` is `False`, as in Python). -/
inductive AthVal where
  | astr (s : String)
  | aint (n : Int)
deriving DecidableEq

/-- Python `str(athlete)` where `athlete` is a string, an int, or `None`. -/
def pyStrOfAthOpt : Option AthVal → String
  | none => "None"
  | some (.astr s) => s
  | some (.aint n) => toString n

/-- A scoring event (one element of an `events` JSON array). Every field is
optional; a key that is absent and a key set to JSON `null` are identified,
matching how the code reads every field through `dict.get`. -/
structure Event where
  timestamp_seconds : Option Int := none
  match_clock : Option String := none
  athlete : Option AthVal := none
  points_change : Option Int := none
  advantages_change : Option Int := none
  penalties_change : Option Int := none
  action : Option String := none
  ibjjf_rule : Option String := none
  running_score : Option String := none
  running_advantages : Option String := none
  running_penalties : Option String := none
deriving DecidableEq

/-- Python truthiness of the event dict: a dict is truthy iff it is nonempty,
i.e. iff at least one field is present. -/
def Event.isTruthy (e : Event) : Bool :=
  e.timestamp_seconds.isSome || e.match_clock.isSome || e.athlete.isSome ||
  e.points_change.isSome || e.advantages_change.isSome ||
  e.penalties_change.isSome || e.action.isSome || e.ibjjf_rule.isSome ||
  e.running_score.isSome || e.running_advantages.isSome ||
  e.running_penalties.isSome

/-- Result of Python's `name and name.split()[0] in hay` subexpression:
`some b` is the boolean outcome, `none` models the `IndexError` raised when
`name` is truthy (nonempty) but consists only of whitespace, so that
`name.split()` is empty and `[0]` is out of range. -/
def firstTokenMatches (name : String) (hay : String) : Option Bool :=
  if name = "" then some false
  else
    match pyTokens name with
    | [] => none
    | t :: _ => some (containsList t hay.toList)

/-- `normalize_athlete` (evaluate.py:28): resolve the raw athlete value to the
literal `"1"` or `"2"`. `none` models an uncaught `IndexError` from the
first-name substring fallback. -/
def normalizeAthlete (a : Option AthVal) (n1 n2 : String) : Option String :=
  if a = some (.astr "1") then some "1"
  else if a = some (.astr "2") then some "2"
  else if a = some (.aint 1) then some "1"
  else if a = some (.aint 2) then some "2"
  else if a = some (.astr n1) then some "1"
  else if a = some (.astr n2) then some "2"
  else
    match firstTokenMatches n1 (pyStrOfAthOpt a) with
    | none => none
    | some true => some "1"
    | some false =>
      match firstTokenMatches n2 (pyStrOfAthOpt a) with
      | none => none
      | some true => some "2"
      | some false => some "1"

/-- `normalize_events` (evaluate.py:49): rewrite each event's athlete field to
the normalized string, left to right; `none` models a propagated exception. -/
def normalizeEvents : List Event → String → String → Option (List Event)
  | [], _, _ => some []
  | e :: rest, n1, n2 =>
    match normalizeAthlete e.athlete n1 n2 with
    | none => none
    | some s =>
      match normalizeEvents rest n1 n2 with
      | none => none
      | some rest2 => some ({ e with athlete := some (.astr s) } :: rest2)

/-- One pairing of the alignment (`MatchResult` dataclass, evaluate.py:10). -/
structure MatchResult where
  gt_index : Option Nat
  pred_index : Option Nat
  gt_event : Option Event
  pred_event : Option Event
deriving DecidableEq

/-- Time difference used by the matcher (evaluate.py:86-95): absolute clock
difference when both `match_clock` values parse, otherwise absolute difference
of `timestamp_seconds` with a missing timestamp defaulting to `0`. -/
def timeDiff (g p : Event) : Int :=
  match parseClock (g.match_clock.getD ""), parseClock (p.match_clock.getD "") with
  | some gc, some pc => Int.ofNat (gc - pc).natAbs
  | _, _ => Int.ofNat ((g.timestamp_seconds.getD 0) - (p.timestamp_seconds.getD 0)).natAbs

/-- Candidate-improvement test (evaluate.py:97): within tolerance and strictly
better than the best difference so far (`float('inf')` initially). -/
def better (tol d : Int) : Option (Nat × Event × Int) → Bool
  | none => decide (d ≤ tol)
  | some (_, _, b) => decide (d ≤ tol) && decide (d < b)

/-- Inner scan of the matcher (evaluate.py:78-99): walk the indexed prediction
list, skipping consumed indices and athlete mismatches, keeping the first
strictly-best candidate within tolerance. -/
def scanPreds (g : Event) (tol : Int) (used : List Nat) :
    List (Nat × Event) → Option (Nat × Event × Int) → Option (Nat × Event × Int)
  | [], best => best
  | (j, p) :: rest, best =>
    if j ∈ used then scanPreds g tol used rest best
    else if g.athlete ≠ p.athlete then scanPreds g tol used rest best
    else if better tol (timeDiff g p) best then
      scanPreds g tol used rest (some (j, p, timeDiff g p))
    else scanPreds g tol used rest best

/-- Python `enumerate` starting at `n`. -/
def withIdx (n : Nat) : List Event → List (Nat × Event)
  | [] => []
  | a :: as => (n, a) :: withIdx (n + 1) as

/-- Outer loop of the matcher (evaluate.py:72-116): for each ground-truth
event in order, consume the best unconsumed prediction or emit a
false-negative pairing; returns the pairings and the consumed indices. -/
def matchEventsAux (preds : List (Nat × Event)) (tol : Int) :
    List (Nat × Event) → List Nat → List MatchResult × List Nat
  | [], used => ([], used)
  | (i, g) :: gts, used =>
    match scanPreds g tol used preds none with
    | some (j, p, _) =>
      let r := matchEventsAux preds tol gts (j :: used)
      ({ gt_index := some i, pred_index := some j,
         gt_event := some g, pred_event := some p } :: r.1, r.2)
    | none =>
      let r := matchEventsAux preds tol gts used
      ({ gt_index := some i, pred_index := none,
         gt_event := some g, pred_event := none } :: r.1, r.2)

/-- `match_events` (evaluate.py:57): the greedy alignment — ground-truth pass
followed by a false-positive pairing for every unconsumed prediction. -/
def matchEvents (gts preds : List Event) (tol : Int) : List MatchResult :=
  let ip := withIdx 0 preds
  let r := matchEventsAux ip tol (withIdx 0 gts) []
  r.1 ++ (ip.filter (fun x => decide (x.1 ∉ r.2))).map
    (fun x => { gt_index := none, pred_index := some x.1,
                gt_event := none, pred_event := some x.2 })

/-- Python truthiness of a `dict | None` slot of a `MatchResult`. -/
def truthyOpt : Option Event → Bool
  | none => false
  | some e => e.isTruthy

/-- A pairing counted as matched by the metric functions: both event slots
truthy (`m.gt_event and m.pred_event`). -/
def isMatchedPair (m : MatchResult) : Bool :=
  truthyOpt m.gt_event && truthyOpt m.pred_event

/-- The matched sublist used by the metric functions (evaluate.py:153, 220, 252). -/
def matchedOf (ms : List MatchResult) : List MatchResult :=
  ms.filter isMatchedPair

/-- True-positive count (evaluate.py:133). -/
def tpCount (ms : List MatchResult) : Nat :=
  (ms.filter (fun m => truthyOpt m.gt_event && truthyOpt m.pred_event)).length

/-- False-negative count (evaluate.py:134). -/
def fnCount (ms : List MatchResult) : Nat :=
  (ms.filter (fun m => truthyOpt m.gt_event && !truthyOpt m.pred_event)).length

/-- False-positive count (evaluate.py:135). -/
def fpCount (ms : List MatchResult) : Nat :=
  (ms.filter (fun m => !truthyOpt m.gt_event && truthyOpt m.pred_event)).length

/-- Output of `compute_detection_metrics`; float rates are modelled as `ℚ`. -/
structure DetectionMetrics where
  true_positives : Nat
  false_negatives : Nat
  false_positives : Nat
  precision : ℚ
  «recall» : ℚ
  f1 : ℚ
deriving DecidableEq

/-- `compute_detection_metrics` (evaluate.py:131): precision, recall and F1
with the zero-denominator cases defined to be `0`. -/
def computeDetectionMetrics (ms : List MatchResult) : DetectionMetrics :=
  let tp := tpCount ms
  let fn := fnCount ms
  let fp := fpCount ms
  let precision : ℚ := if tp + fp > 0 then (tp : ℚ) / ((tp : ℚ) + (fp : ℚ)) else 0
  let rcl : ℚ := if tp + fn > 0 then (tp : ℚ) / ((tp : ℚ) + (fn : ℚ)) else 0
  let f1 : ℚ :=
    if precision + rcl > 0 then 2 * precision * rcl / (precision + rcl) else 0
  { true_positives := tp, false_negatives := fn, false_positives := fp,
    precision := precision, «recall» := rcl, f1 := f1 }

/-- The fixed field set of `compute_field_accuracy` (evaluate.py:158). -/
inductive FieldId where
  | points_change
  | advantages_change
  | penalties_change
  | action
  | running_score
  | running_advantages
  | running_penalties
  | match_clock
deriving DecidableEq

/-- Order in which `compute_field_accuracy` visits the fields. -/
def fieldList : List FieldId :=
  [.points_change, .advantages_change, .penalties_change, .action,
   .running_score, .running_advantages, .running_penalties, .match_clock]

/-- A Python value read from an event dict by `dict.get`: absent, int, or str. -/
inductive PyVal where
  | vNone
  | vInt (n : Int)
  | vStr (s : String)
deriving DecidableEq

/-- `event.get(field)` for the fields visited by `compute_field_accuracy`. -/
def Event.getField (e : Event) : FieldId → PyVal
  | .points_change => match e.points_change with | none => .vNone | some n => .vInt n
  | .advantages_change => match e.advantages_change with | none => .vNone | some n => .vInt n
  | .penalties_change => match e.penalties_change with | none => .vNone | some n => .vInt n
  | .action => match e.action with | none => .vNone | some s => .vStr s
  | .running_score => match e.running_score with | none => .vNone | some s => .vStr s
  | .running_advantages => match e.running_advantages with | none => .vNone | some s => .vStr s
  | .running_penalties => match e.running_penalties with | none => .vNone | some s => .vStr s
  | .match_clock => match e.match_clock with | none => .vNone | some s => .vStr s

/-- Python truthiness of such a value. -/
def pyTruthy : PyVal → Bool
  | .vNone => false
  | .vInt n => decide (n ≠ 0)
  | .vStr s => decide (s ≠ "")

/-- `parse_clock` applied to a raw field value: `None` gives `None` via the
falsy check, an int value hits the caught `AttributeError` (also `None`). -/
def parseClockVal : PyVal → Option Int
  | .vStr s => parseClock s
  | _ => none

/-- One field's tally over the matched pairings (evaluate.py:171-193):
pairs with an absent or empty ground-truth value are skipped; `match_clock`
is compared with a 5-second tolerance, other fields by equality. The result
is `(correct, total)`; `none` models the uncaught `TypeError` raised by
`abs(gt_seconds - pred_seconds)` when the truthy ground-truth clock fails to
parse (`gt_seconds is None`) while the prediction clock parses. -/
def tallyField (f : FieldId) : List MatchResult → Nat × Nat → Option (Nat × Nat)
  | [], acc => some acc
  | m :: rest, (c, t) =>
    let gtv := (m.gt_event.getD {}).getField f
    let predv := (m.pred_event.getD {}).getField f
    if gtv = .vNone ∨ gtv = .vStr "" then tallyField f rest (c, t)
    else if f = .match_clock then
      match (if pyTruthy predv then parseClockVal predv else none) with
      | none => tallyField f rest (c, t + 1)
      | some ps =>
        match parseClockVal gtv with
        | none => none
        | some gs =>
          tallyField f rest ((if (gs - ps).natAbs ≤ 5 then c + 1 else c), t + 1)
    else tallyField f rest ((if gtv = predv then c + 1 else c), t + 1)

/-- Per-field statistics entry returned by `compute_field_accuracy`. -/
structure FieldStat where
  correct : Nat
  total : Nat
  accuracy : ℚ
deriving DecidableEq

/-- `compute_field_accuracy` (evaluate.py:151): per-field `{correct, total,
accuracy}` over matched pairings, omitting fields with no eligible pair;
`none` models the propagated `TypeError` described at `tallyField`. -/
def computeFieldAccuracy (ms : List MatchResult) : Option (List (FieldId × FieldStat)) :=
  let matched := matchedOf ms
  if matched = [] then some []
  else
    match fieldList.mapM (fun f => (tallyField f matched (0, 0)).map fun ct => (f, ct)) with
    | none => none
    | some stats =>
      some (stats.filterMap fun x =>
        if x.2.2 > 0 then some (x.1, ⟨x.2.1, x.2.2, (x.2.1 : ℚ) / (x.2.2 : ℚ)⟩) else none)

/-- Output of `compute_clock_accuracy` when it is nonempty. -/
structure ClockAccuracy where
  mean_absolute_error : ℚ
  max_error : Int
  min_error : Int
  matched_with_clock : Nat
deriving DecidableEq

/-- `compute_clock_accuracy` (evaluate.py:218): absolute clock errors over
matched pairings where both clocks parse; `none` models the empty dict
returned when there is no eligible pairing. -/
def computeClockAccuracy (ms : List MatchResult) : Option ClockAccuracy :=
  let matched := matchedOf ms
  if matched = [] then none
  else
    let errors := matched.filterMap fun m =>
      match parseClock ((m.gt_event.getD {}).match_clock.getD ""),
            parseClock ((m.pred_event.getD {}).match_clock.getD "") with
      | some gc, some pc => some (Int.ofNat (gc - pc).natAbs)
      | _, _ => none
    match errors with
    | [] => none
    | e :: rest =>
      some { mean_absolute_error := ((errors.foldl (· + ·) 0 : Int) : ℚ) / (errors.length : ℚ),
             max_error := rest.foldl max e,
             min_error := rest.foldl min e,
             matched_with_clock := errors.length }

/-- Sort key of `sorted(matched, key=lambda m: m.gt_index)`; matched pairings
produced by `match_events` always carry a ground-truth index, so the default
for `none` is never exercised on the matcher's output. -/
def gtKey (m : MatchResult) : Nat := m.gt_index.getD 0

/-- Prediction index used by the inversion count; matched pairings produced by
`match_events` always carry one. -/
def predKey (m : MatchResult) : Nat := m.pred_index.getD 0

/-- Stable insertion before the first strictly greater key. -/
def stableInsert (m : MatchResult) : List MatchResult → List MatchResult
  | [] => [m]
  | x :: xs => if gtKey m < gtKey x then m :: x :: xs else x :: stableInsert m xs

/-- Python `sorted` (a stable sort) by ground-truth index, modelled as stable
insertion sort: the unique stable, order-preserving-on-ties sorted permutation. -/
def sortByGt (l : List MatchResult) : List MatchResult :=
  l.foldl (fun acc m => stableInsert m acc) []

/-- Discordant pairs of the double loop (evaluate.py:264-270): pairs `i < j`
with the earlier prediction index strictly greater than the later one. -/
def invCount : List MatchResult → Nat
  | [] => 0
  | m :: rest =>
    (rest.filter (fun m2 => decide (predKey m > predKey m2))).length + invCount rest

/-- Total pair count of the same double loop. -/
def totalPairsCount : List MatchResult → Nat
  | [] => 0
  | _ :: rest => rest.length + totalPairsCount rest

/-- Output of `compute_sequence_metrics`. -/
structure SequenceMetrics where
  pairs_in_order : ℚ
  total_pairs : Nat
  inversions : Nat
deriving DecidableEq

/-- `compute_sequence_metrics` (evaluate.py:244): inversion count over matched
pairings sorted by ground-truth index, with the fewer-than-two-pairings case
fixed to `pairs_in_order = 1.0`. -/
def computeSequenceMetrics (ms : List MatchResult) : SequenceMetrics :=
  let matched := matchedOf ms
  if matched.length < 2 then { pairs_in_order := 1, total_pairs := 0, inversions := 0 }
  else
    let sorted := sortByGt matched
    let inv := invCount sorted
    let tot := totalPairsCount sorted
    { pairs_in_order := if tot > 0 then ((tot : ℚ) - (inv : ℚ)) / (tot : ℚ) else 1,
      total_pairs := tot, inversions := inv }

/-- The analysis-shaped keys of a document: athlete names, final score,
winner, and the events list; every key optional. -/
structure Analysis where
  athlete_1_name : Option String := none
  athlete_2_name : Option String := none
  final_score : Option String := none
  winner : Option String := none
  events : Option (List Event) := none
deriving DecidableEq

/-- A prediction/result document: `model` and `media_resolution` at the top
level, an optional nested `analysis` object, and `top` — the analysis-shaped
keys appearing directly at the top level of the same dict. -/
structure PredDoc where
  model : Option String := none
  media_resolution : Option String := none
  analysis : Option Analysis := none
  top : Analysis := {}
deriving DecidableEq

/-- Output of `compute_match_level_metrics`. -/
structure MatchLevelMetrics where
  final_score_correct : Bool
  gt_final_score : String
  pred_final_score : String
  winner_correct : Bool
  gt_winner : String
  pred_winner : String
  athlete_1_name_correct : Bool
  athlete_2_name_correct : Bool
deriving DecidableEq

/-- Field comparisons of `compute_match_level_metrics` once the prediction
analysis dict has been selected. -/
def matchLevelOf (gt pa : Analysis) : MatchLevelMetrics :=
  { final_score_correct := decide (gt.final_score.getD "" = pa.final_score.getD ""),
    gt_final_score := gt.final_score.getD "",
    pred_final_score := pa.final_score.getD "",
    winner_correct := decide (gt.winner.getD "" = pa.winner.getD ""),
    gt_winner := gt.winner.getD "",
    pred_winner := pa.winner.getD "",
    athlete_1_name_correct := decide (gt.athlete_1_name.getD "" = pa.athlete_1_name.getD ""),
    athlete_2_name_correct := decide (gt.athlete_2_name.getD "" = pa.athlete_2_name.getD "") }

/-- `compute_match_level_metrics` (evaluate.py:281): compares against
`pred_data.get("analysis", pred_data)` — the nested analysis when present,
otherwise the top level of the prediction document itself. -/
def computeMatchLevelMetrics (gt : Analysis) (pred : PredDoc) : MatchLevelMetrics :=
  matchLevelOf gt (pred.analysis.getD pred.top)

/-- The metrics document assembled by `evaluate` (evaluate.py:311), minus the
file name supplied by the excluded I/O layer. -/
structure EvalReport where
  model : String
  media_resolution : String
  gt_event_count : Nat
  pred_event_count : Nat
  clock_tolerance : Int
  gt_athlete_1 : String
  gt_athlete_2 : String
  detection : DetectionMetrics
  field_accuracy : List (FieldId × FieldStat)
  clock_accuracy : Option ClockAccuracy
  sequence : SequenceMetrics
  match_level : MatchLevelMetrics
  «matches» : List MatchResult
deriving DecidableEq

/-- `evaluate` (evaluate.py:311) on already-loaded documents. Events are taken
from `result_data.get("analysis", {})` (evaluate.py:319) — so hoisted events
are an empty sequence — while match-level metrics use the hoisted fallback.
`none` models an exception propagated from normalization or field accuracy. -/
def evaluateCore (gt : Analysis) (res : PredDoc) (tol : Int) : Option EvalReport :=
  let a1 := gt.athlete_1_name.getD ""
  let a2 := gt.athlete_2_name.getD ""
  let predAnalysis := res.analysis.getD {}
  match normalizeEvents (gt.events.getD []) a1 a2 with
  | none => none
  | some gtEvents =>
    match normalizeEvents (predAnalysis.events.getD []) a1 a2 with
    | none => none
    | some predEvents =>
      let ms := matchEvents gtEvents predEvents tol
      match computeFieldAccuracy ms with
      | none => none
      | some fa =>
        some { model := res.model.getD "unknown",
               media_resolution := res.media_resolution.getD "unknown",
               gt_event_count := gtEvents.length,
               pred_event_count := predEvents.length,
               clock_tolerance := tol,
               gt_athlete_1 := a1, gt_athlete_2 := a2,
               detection := computeDetectionMetrics ms,
               field_accuracy := fa,
               clock_accuracy := computeClockAccuracy ms,
               sequence := computeSequenceMetrics ms,
               match_level := computeMatchLevelMetrics gt res,
               «matches» := ms }

/-- Example ground-truth document: one event by athlete `"1"`. -/
def exGt : Analysis := { events := some [{ athlete := some (.astr "1") }] }

/-- Example analysis object: one predicted event by athlete `"1"`. -/
def exAnalysis : Analysis := { events := some [{ athlete := some (.astr "1") }] }

/-- Example prediction document with the analysis nested under `analysis`. -/
def exNested : PredDoc := { analysis := some exAnalysis }

/-- The same prediction document with the analysis fields hoisted to the top
level (no `analysis` key). -/
def exHoisted : PredDoc := { top := exAnalysis }

example :
    matchEvents [{ athlete := some (.astr "1"), match_clock := some "8:45" }]
      [{ athlete := some (.astr "1"), match_clock := some "8:50" }] 10 =
    [{ gt_index := some 0, pred_index := some 0,
       gt_event := some { athlete := some (.astr "1"), match_clock := some "8:45" },
       pred_event := some { athlete := some (.astr "1"), match_clock := some "8:50" } }] := by
  decide

example :
    (computeClockAccuracy
      (matchEvents [{ athlete := some (.astr "1"), match_clock := some "8:45" }]
        [{ athlete := some (.astr "1"), match_clock := some "8:50" }] 10)).map
      (fun c => (c.max_error, c.min_error, c.matched_with_clock)) = some (5, 5, 1) := by
  decide

example :
    (computeDetectionMetrics
      (matchEvents [{ athlete := some (.astr "1"), match_clock := some "8:45" }]
        [{ athlete := some (.astr "1"), match_clock := some "8:50" }] 10)).true_positives = 1 := by
  decide

example :
    (computeSequenceMetrics
      (matchEvents
        [{ athlete := some (.astr "1"), match_clock := some "5:00" },
         { athlete := some (.astr "1"), match_clock := some "3:00" }]
        [{ athlete := some (.astr "1"), match_clock := some "2:58" },
         { athlete := some (.astr "1"), match_clock := some "5:02" }] 10)).inversions = 1 := by
  decide

example :
    (computeSequenceMetrics
      (matchEvents
        [{ athlete := some (.astr "1"), match_clock := some "5:00" },
         { athlete := some (.astr "1"), match_clock := some "3:00" }]
        [{ athlete := some (.astr "1"), match_clock := some "2:58" },
         { athlete := some (.astr "1"), match_clock := some "5:02" }] 10)).total_pairs = 1 := by
  decide

/-! Helper lemmas about the embedded definitions. -/

example : parseClock "8:45" = some 525 := by decide
example : parseClock "" = none := by decide
example : parseClock "45" = some 45 := by decide
example : parseClock "abc" = none := by decide
example : parseClock "1:2:3" = none := by decide
example : parseClock ":" = none := by decide
example : pyIntChars " -8 ".toList = some (-8) := by decide
example : pyTokens "  a b " = ["a".toList, "b".toList] := by decide
example : pyTokens " " = [] := by decide
example : containsList "bc".toList "abcd".toList = true := by decide
example : containsList "bd".toList "abcd".toList = false := by decide

example : normalizeAthlete (some (.astr "John Doe")) "John Doe" "Max Q" = some "1" := by decide
example : normalizeAthlete (some (.aint 2)) "" "" = some "2" := by decide
example : normalizeAthlete (some (.astr "J. Doe fans")) "Doe X" "Max Q" = some "1" := by decide
example : normalizeAthlete (some (.astr "zz")) "" "" = some "1" := by decide
example : normalizeAthlete (some (.astr "x")) " " "y" = none := by decide
example : normalizeAthlete none "None of the above" "y" = some "1" := by decide


theorem timeDiff_nonneg (g p : Event) : 0 ≤ timeDiff g p := by
  unfold timeDiff
  split <;> exact Int.ofNat_nonneg _

theorem timeDiff_self (g : Event) : timeDiff g g = 0 := by
  unfold timeDiff
  cases h : parseClock (g.match_clock.getD "") with
  | some gc => simp [h]
  | none => simp [h]

theorem normalizeAthlete_range {a : Option AthVal} {n1 n2 s : String}
    (h : normalizeAthlete a n1 n2 = some s) : s = "1" ∨ s = "2" := by
  unfold normalizeAthlete at h
  repeat' split at h
  all_goals first
  | exact Option.noConfusion h
  | (injection h with h2; simp [h2.symm])

theorem normalizeAthlete_fixes {s : String} (n1 n2 : String) (hs : s = "1" ∨ s = "2") :
    normalizeAthlete (some (.astr s)) n1 n2 = some s := by
  rcases hs with h | h <;> subst h <;> rfl

/-! Claim theorems. -/

/-- C9: `parse_clock` satisfies the stated equations for the canonical
formats: `parse_clock("8:45") = 525` (an "M:SS" string parses as M*60+SS),
`parse_clock("") = None`, and `parse_clock("45") = 45` (a bare integer string
parses as that many seconds). -/
theorem parseClock_canonical_formats :
    parseClock "8:45" = some 525 ∧ parseClock "" = none ∧ parseClock "45" = some 45 := by
  decide

/-- C6 (failing input): `normalize_athlete` raises `IndexError` — modelled as
`none` — on athlete `"x"` with a whitespace-only first athlete name `" "`: the
name is truthy, so the fallback evaluates `" ".split()[0]` on the empty token
list. This contradicts the claim that `normalize_athlete` never raises and
always returns `"1"` or `"2"` for every pair of name strings, including
whitespace-only names. -/
theorem normalizeAthlete_whitespace_name_fault :
    normalizeAthlete (some (.astr "x")) " " "y" = none := by
  decide

/-- C2 (failing input): on an alignment whose single matched pairing has a
present-but-unparsable ground-truth `match_clock` (`"abc"`) and a parsable
prediction clock (`"8:45"`), the matcher pairs the events without error (via
the timestamp fallback), but `compute_field_accuracy` evaluates
`abs(None - 525)` in the `match_clock` tolerance check and raises `TypeError`
— modelled as `none` — contradicting the claim that metric computation never
raises on unparsable clock strings. -/
theorem field_accuracy_unparsable_gt_clock_fault :
    computeFieldAccuracy
      (matchEvents [{ athlete := some (.astr "1"), match_clock := some "abc" }]
        [{ athlete := some (.astr "1"), match_clock := some "8:45" }] 10) = none := by
  decide

theorem normalizeEvents_fixpoint {n1 n2 : String} :
    ∀ {es out : List Event}, normalizeEvents es n1 n2 = some out →
      normalizeEvents out n1 n2 = some out
  | [], out, h => by
    simp only [normalizeEvents] at h
    injection h with h2
    subst h2
    rfl
  | e :: rest, out, h => by
    simp only [normalizeEvents] at h
    cases hA : normalizeAthlete e.athlete n1 n2 with
    | none => rw [hA] at h; exact Option.noConfusion h
    | some s =>
      rw [hA] at h
      cases hR : normalizeEvents rest n1 n2 with
      | none => rw [hR] at h; exact Option.noConfusion h
      | some rest2 =>
        rw [hR] at h
        injection h with h2
        subst h2
        have hrec : normalizeEvents rest2 n1 n2 = some rest2 := normalizeEvents_fixpoint hR
        have h1 : normalizeAthlete ({ e with athlete := some (.astr s) } : Event).athlete n1 n2
            = some s :=
          normalizeAthlete_fixes n1 n2 (normalizeAthlete_range hA)
        simp only [normalizeEvents, h1, hrec]

/-- C8: normalization is idempotent: running `normalize_events` on the result
of `normalize_events` (with the same names, propagating any exception of the
inner run, which is what the composed Python expression does) gives the same
result as the single run — an already-normalized sequence is unchanged. -/
theorem normalizeEvents_idempotent (es : List Event) (n1 n2 : String) :
    (normalizeEvents es n1 n2).bind (fun es2 => normalizeEvents es2 n1 n2) =
      normalizeEvents es n1 n2 := by
  cases h : normalizeEvents es n1 n2 with
  | none => rfl
  | some out => simpa using normalizeEvents_fixpoint h

/-- C7: zero denominators never fault and take the documented values: for
every alignment, `precision = 0` when `TP+FP = 0`, `recall = 0` when
`TP+FN = 0`, `f1 = 0` when `precision+recall = 0`, and the sequence metrics
are `pairs_in_order = 1.0`, `total_pairs = 0`, `inversions = 0` when fewer
than two matched pairings exist. -/
theorem zero_denominator_conventions (ms : List MatchResult) :
    ((computeDetectionMetrics ms).true_positives + (computeDetectionMetrics ms).false_positives = 0 →
      (computeDetectionMetrics ms).precision = 0) ∧
    ((computeDetectionMetrics ms).true_positives + (computeDetectionMetrics ms).false_negatives = 0 →
      (computeDetectionMetrics ms).«recall» = 0) ∧
    ((computeDetectionMetrics ms).precision + (computeDetectionMetrics ms).«recall» = 0 →
      (computeDetectionMetrics ms).f1 = 0) ∧
    ((matchedOf ms).length < 2 →
      computeSequenceMetrics ms = { pairs_in_order := 1, total_pairs := 0, inversions := 0 }) := by
  refine ⟨?_, ?_, ?_, ?_⟩
  · intro h
    simp only [computeDetectionMetrics] at h ⊢
    rw [if_neg (by omega)]
  · intro h
    simp only [computeDetectionMetrics] at h ⊢
    rw [if_neg (by omega)]
  · intro h
    simp only [computeDetectionMetrics] at h ⊢
    rw [if_neg (by rw [h]; exact lt_irrefl 0)]
  · intro h
    simp only [computeSequenceMetrics]
    rw [if_pos h]

/-- C7 witness: the empty alignment exercises every zero-denominator branch. -/
theorem zero_denominator_conventions_witness :
    (computeDetectionMetrics []).precision = 0 ∧
    (computeDetectionMetrics []).«recall» = 0 ∧
    (computeDetectionMetrics []).f1 = 0 ∧
    computeSequenceMetrics [] = { pairs_in_order := 1, total_pairs := 0, inversions := 0 } := by
  obtain ⟨h1, h2, h3, h4⟩ := zero_denominator_conventions []
  have hp := h1 (by decide)
  have hr := h2 (by decide)
  exact ⟨hp, hr, h3 (by rw [hp, hr]; norm_num), h4 (by decide)⟩

/-- C10: when neither event has a parseable `match_clock`, the fallback
comparison reads `timestamp_seconds` with default `0`; so two events that
share an athlete and lack both a parseable clock and a timestamp have time
difference `0` and, for every tolerance ≥ 0, qualify as a match: on the
singleton lists the matcher pairs them. -/
theorem missing_times_always_candidate (g p : Event) (tol : Int) (h0 : 0 ≤ tol)
    (ha : g.athlete = p.athlete)
    (hg : parseClock (g.match_clock.getD "") = none)
    (hp : parseClock (p.match_clock.getD "") = none)
    (hgt : g.timestamp_seconds = none) (hpt : p.timestamp_seconds = none) :
    timeDiff g p = 0 ∧
    matchEvents [g] [p] tol =
      [{ gt_index := some 0, pred_index := some 0,
         gt_event := some g, pred_event := some p }] := by
  have hd : timeDiff g p = 0 := by
    unfold timeDiff
    rw [hg, hp]
    simp [hgt, hpt]
  refine ⟨hd, ?_⟩
  simp [matchEvents, withIdx, matchEventsAux, scanPreds, better, ha, hd, h0]

/-- C10 witness: two events with unparsable clocks (`"abc"`, `"junk"`), no
timestamps, and the same athlete are matched at tolerance 7. -/
theorem missing_times_always_candidate_witness :
    timeDiff { athlete := some (.astr "1"), match_clock := some "abc" }
        { athlete := some (.astr "1"), match_clock := some "junk" } = 0 ∧
    matchEvents [{ athlete := some (.astr "1"), match_clock := some "abc" }]
        [{ athlete := some (.astr "1"), match_clock := some "junk" }] 7 =
      [{ gt_index := some 0, pred_index := some 0,
         gt_event := some { athlete := some (.astr "1"), match_clock := some "abc" },
         pred_event := some { athlete := some (.astr "1"), match_clock := some "junk" } }] :=
  missing_times_always_candidate _ _ 7 (by decide) rfl (by decide) (by decide) rfl rfl

theorem scanPreds_skip_all (g : Event) (tol : Int) (used : List Nat) :
    ∀ (l : List (Nat × Event)) (best : Option (Nat × Event × Int)),
      (∀ x ∈ l, g.athlete ≠ x.2.athlete) → scanPreds g tol used l best = best
  | [], _, _ => rfl
  | (j, p) :: rest, best, h => by
    have hrec := scanPreds_skip_all g tol used rest best (fun x hx => h x (List.mem_cons_of_mem _ hx))
    have hAth : g.athlete ≠ p.athlete := h (j, p) (List.mem_cons_self _ _)
    by_cases hj : j ∈ used
    · simp only [scanPreds, if_pos hj]
      exact hrec
    · simp only [scanPreds, if_neg hj, if_pos hAth]
      exact hrec

theorem matchEventsAux_all_fn (ip : List (Nat × Event)) (tol : Int) :
    ∀ (its : List (Nat × Event)) (used : List Nat),
      (∀ y ∈ its, ∀ x ∈ ip, y.2.athlete ≠ x.2.athlete) →
      matchEventsAux ip tol its used =
        (its.map (fun y => { gt_index := some y.1, pred_index := none,
                             gt_event := some y.2, pred_event := none }), used)
  | [], _, _ => rfl
  | (i, g) :: its, used, h => by
    have hscan : scanPreds g tol used ip none = none :=
      scanPreds_skip_all g tol used ip none
        (fun x hx => h (i, g) (List.mem_cons_self _ _) x hx)
    have hrec := matchEventsAux_all_fn ip tol its used
      (fun y hy x hx => h y (List.mem_cons_of_mem _ hy) x hx)
    simp only [matchEventsAux, hscan, hrec, List.map_cons]

/-- C4 (amended): if, after normalization, every ground-truth athlete differs
from every predicted athlete, then for every tolerance the alignment consists
of exactly one false-negative pairing per ground-truth event followed by one
false-positive pairing per prediction event, and there are no matched
pairings. (The original claim assumed only element-wise distinctness, which
is refuted by the crossed-athletes counterexample.) -/
theorem disjoint_athletes_no_matches (G P : List Event) (n1 n2 : String)
    (G2 P2 : List Event) (tol : Int)
    (_hG : normalizeEvents G n1 n2 = some G2) (_hP : normalizeEvents P n1 n2 = some P2)
    (hdisj : ∀ g ∈ G2, ∀ p ∈ P2, g.athlete ≠ p.athlete) :
    matchEvents G2 P2 tol =
      (withIdx 0 G2).map (fun y => { gt_index := some y.1, pred_index := none,
                                     gt_event := some y.2, pred_event := none }) ++
      (withIdx 0 P2).map (fun x => { gt_index := none, pred_index := some x.1,
                                     gt_event := none, pred_event := some x.2 }) ∧
    tpCount (matchEvents G2 P2 tol) = 0 := by
  have hsnd : ∀ {n : Nat} {l : List Event} {x : Nat × Event}, x ∈ withIdx n l → x.2 ∈ l := by
    intro n l
    induction l generalizing n with
    | nil => intro x hx; exact absurd hx (List.not_mem_nil x)
    | cons e rest ih =>
      intro x hx
      rcases List.mem_cons.mp hx with h | h
      · subst h; exact List.mem_cons_self _ _
      · exact List.mem_cons_of_mem _ (ih h)
  have hms : matchEvents G2 P2 tol =
      (withIdx 0 G2).map (fun y => { gt_index := some y.1, pred_index := none,
                                     gt_event := some y.2, pred_event := none }) ++
      (withIdx 0 P2).map (fun x => { gt_index := none, pred_index := some x.1,
                                     gt_event := none, pred_event := some x.2 }) := by
    unfold matchEvents
    dsimp only
    rw [matchEventsAux_all_fn (withIdx 0 P2) tol (withIdx 0 G2) []
      (fun y hy x hx => hdisj y.2 (hsnd hy) x.2 (hsnd hx))]
    simp
  refine ⟨hms, ?_⟩
  rw [hms]
  simp [tpCount, List.filter_append, List.filter_map, truthyOpt, Function.comp_def]

/-- C4 witness: ground truth all athlete `"1"`, predictions all athlete `"2"`
(athlete-disjoint after normalization with names Alice/Bob): one false
negative, one false positive, no matched pairing, at tolerance 10. -/
theorem disjoint_athletes_no_matches_witness :
    matchEvents [{ athlete := some (.astr "1") }] [{ athlete := some (.astr "2") }] 10 =
      [{ gt_index := some 0, pred_index := none,
         gt_event := some { athlete := some (.astr "1") }, pred_event := none },
       { gt_index := none, pred_index := some 0,
         gt_event := none, pred_event := some { athlete := some (.astr "2") } }] ∧
    tpCount (matchEvents [{ athlete := some (.astr "1") }]
      [{ athlete := some (.astr "2") }] 10) = 0 :=
  disjoint_athletes_no_matches
    [{ athlete := some (.astr "1") }] [{ athlete := some (.astr "2") }] "Alice" "Bob"
    [{ athlete := some (.astr "1") }] [{ athlete := some (.astr "2") }] 10
    (by decide) (by decide) (by decide)

/-- C4 (counterexample): two ground-truth events with athletes `"1","2"` and
predictions with athletes `"2","1"` differ element-by-element after
normalization (with names Alice/Bob the normalizer leaves them unchanged),
yet the matcher pairs each ground-truth event with the opposite-position
prediction: two matched pairings, not the all-false-negative/false-positive
alignment the claim asserts. -/
theorem crossed_athletes_still_match :
    normalizeEvents [{ athlete := some (.astr "1") }, { athlete := some (.astr "2") }]
        "Alice" "Bob" =
      some [{ athlete := some (.astr "1") }, { athlete := some (.astr "2") }] ∧
    normalizeEvents [{ athlete := some (.astr "2") }, { athlete := some (.astr "1") }]
        "Alice" "Bob" =
      some [{ athlete := some (.astr "2") }, { athlete := some (.astr "1") }] ∧
    (({ athlete := some (.astr "1") } : Event).athlete ≠
      ({ athlete := some (.astr "2") } : Event).athlete) ∧
    tpCount (matchEvents
      [{ athlete := some (.astr "1") }, { athlete := some (.astr "2") }]
      [{ athlete := some (.astr "2") }, { athlete := some (.astr "1") }] 10) = 2 := by
  refine ⟨by decide, by decide, by decide, by decide⟩

theorem matchEvents_nil_preds (gts : List Event) (tol : Int) :
    matchEvents gts [] tol =
      (withIdx 0 gts).map (fun y => { gt_index := some y.1, pred_index := none,
                                      gt_event := some y.2, pred_event := none }) := by
  unfold matchEvents
  dsimp only
  rw [matchEventsAux_all_fn (withIdx 0 ([] : List Event)) tol (withIdx 0 gts) []
    (fun y _ x hx => absurd hx (List.not_mem_nil x))]
  simp [withIdx]

theorem all_fn_counts (gts : List Event) :
    tpCount ((withIdx 0 gts).map (fun y => ({ gt_index := some y.1, pred_index := none,
                                              gt_event := some y.2,
                                              pred_event := none } : MatchResult))) = 0 ∧
    fpCount ((withIdx 0 gts).map (fun y => ({ gt_index := some y.1, pred_index := none,
                                              gt_event := some y.2,
                                              pred_event := none } : MatchResult))) = 0 ∧
    matchedOf ((withIdx 0 gts).map (fun y => ({ gt_index := some y.1, pred_index := none,
                                                gt_event := some y.2,
                                                pred_event := none } : MatchResult))) = [] := by
  refine ⟨?_, ?_, ?_⟩ <;>
    simp [tpCount, fpCount, matchedOf, isMatchedPair, List.filter_map,
      truthyOpt, Function.comp_def]

theorem computeFieldAccuracy_of_no_matched {ms : List MatchResult}
    (h : matchedOf ms = []) : computeFieldAccuracy ms = some [] := by
  unfold computeFieldAccuracy
  rw [h]
  rfl

/-- C5 (amended): hoisting the analysis fields to the top level of the
prediction document is tolerated only by the match-level metrics
(`compute_match_level_metrics` falls back to the top-level dict); `evaluate`
reads events exclusively from the `analysis` key, so a hoisted events list is
treated as empty: the report has zero predicted events, zero true positives,
zero false positives, while the match-level section still compares the
hoisted top-level fields. (The original claim — that the whole evaluation
output equals the nested document's — is refuted by the counterexample.) -/
theorem hoisted_analysis_partial_tolerance (gt : Analysis) (res : PredDoc) (tol : Int)
    (r : EvalReport) (hres : res.analysis = none) (hr : evaluateCore gt res tol = some r) :
    r.pred_event_count = 0 ∧ r.detection.true_positives = 0 ∧
    r.detection.false_positives = 0 ∧ r.match_level = matchLevelOf gt res.top := by
  unfold evaluateCore at hr
  rw [hres] at hr
  dsimp only at hr
  cases hN : normalizeEvents (gt.events.getD []) (gt.athlete_1_name.getD "")
      (gt.athlete_2_name.getD "") with
  | none => rw [hN] at hr; exact Option.noConfusion hr
  | some gts =>
    rw [hN] at hr
    simp only [Option.getD_none, normalizeEvents] at hr
    rw [matchEvents_nil_preds gts tol] at hr
    obtain ⟨htp, hfp, hmat⟩ := all_fn_counts gts
    rw [computeFieldAccuracy_of_no_matched hmat] at hr
    dsimp only at hr
    injection hr with hr2
    subst hr2
    refine ⟨rfl, ?_, ?_, ?_⟩
    · simpa [computeDetectionMetrics] using htp
    · simpa [computeDetectionMetrics] using hfp
    · simp [computeMatchLevelMetrics, hres]

/-- C5 (counterexample): for the same ground truth, the document with the
events hoisted to the top level evaluates to zero predicted events and zero
true positives, while the equivalent nested document evaluates to one of
each — the outputs differ, and the hoisted events list is treated as empty,
refuting the claim that the two documents produce the same evaluation. -/
theorem hoisted_events_ignored :
    exHoisted.top = exAnalysis ∧ exNested.analysis = some exAnalysis ∧
    (evaluateCore exGt exHoisted 10).map
      (fun r => (r.pred_event_count, r.detection.true_positives)) = some (0, 0) ∧
    (evaluateCore exGt exNested 10).map
      (fun r => (r.pred_event_count, r.detection.true_positives)) = some (1, 1) := by
  exact ⟨rfl, rfl, by decide, by decide⟩

/-- C5 witness: the hoisted example document reaches the amended conclusion. -/
theorem hoisted_analysis_partial_tolerance_witness :
    (evaluateCore exGt exHoisted 10).elim False (fun r =>
      r.pred_event_count = 0 ∧ r.detection.true_positives = 0 ∧
      r.detection.false_positives = 0 ∧ r.match_level = matchLevelOf exGt exHoisted.top) := by
  cases hr : evaluateCore exGt exHoisted 10 with
  | none =>
    have h2 : (evaluateCore exGt exHoisted 10).isSome = true := by decide
    rw [hr] at h2
    exact Bool.noConfusion h2
  | some r =>
    simp only [Option.elim]
    exact hoisted_analysis_partial_tolerance exGt exHoisted 10 r rfl hr

theorem withIdx_length : ∀ (n : Nat) (l : List Event), (withIdx n l).length = l.length
  | _, [] => rfl
  | n, _ :: as => by simp [withIdx, withIdx_length (n + 1) as]

theorem fst_mem_withIdx_ge : ∀ {n : Nat} {l : List Event} {x : Nat × Event},
    x ∈ withIdx n l → n ≤ x.1
  | _, [], x, hx => absurd hx (List.not_mem_nil x)
  | n, _ :: as, x, hx => by
    rcases List.mem_cons.mp hx with h | h
    · subst h; exact le_refl n
    · exact le_trans (Nat.le_succ n) (fst_mem_withIdx_ge h)

theorem fst_mem_withIdx_lt : ∀ {n : Nat} {l : List Event} {x : Nat × Event},
    x ∈ withIdx n l → x.1 < n + l.length
  | _, [], x, hx => absurd hx (List.not_mem_nil x)
  | n, _ :: as, x, hx => by
    rcases List.mem_cons.mp hx with h | h
    · subst h; simp
    · have := fst_mem_withIdx_lt h
      simp only [List.length_cons]
      omega

theorem snd_mem_withIdx : ∀ {n : Nat} {l : List Event} {x : Nat × Event},
    x ∈ withIdx n l → x.2 ∈ l
  | _, [], x, hx => absurd hx (List.not_mem_nil x)
  | _, _ :: as, x, hx => by
    rcases List.mem_cons.mp hx with h | h
    · subst h; exact List.mem_cons_self _ _
    · exact List.mem_cons_of_mem _ (snd_mem_withIdx h)

theorem withIdx_pairwise_fst_lt : ∀ (n : Nat) (l : List Event),
    (withIdx n l).Pairwise (fun a b => a.1 < b.1)
  | _, [] => List.Pairwise.nil
  | n, _ :: as => by
    refine List.Pairwise.cons ?_ (withIdx_pairwise_fst_lt (n + 1) as)
    intro y hy
    have := fst_mem_withIdx_ge hy
    omega

theorem scanPreds_stays (g : Event) (tol : Int) (used : List Nat) :
    ∀ (l : List (Nat × Event)) (j0 : Nat) (p0 : Event),
      scanPreds g tol used l (some (j0, p0, 0)) = some (j0, p0, 0)
  | [], _, _ => rfl
  | (j, p) :: rest, j0, p0 => by
    have hrec := scanPreds_stays g tol used rest j0 p0
    have hd := timeDiff_nonneg g p
    have hb : better tol (timeDiff g p) (some (j0, p0, 0)) = false := by
      have hnot : ¬ (timeDiff g p < 0) := not_lt.mpr hd
      simp [better, hnot]
    simp only [scanPreds]
    by_cases hj : j ∈ used
    · simp only [if_pos hj]
      exact hrec
    · rw [if_neg hj]
      by_cases hAth : g.athlete ≠ p.athlete
      · rw [if_pos hAth]
        exact hrec
      · rw [if_neg hAth, hb]
        simpa using hrec

theorem scanPreds_finds_self (G : List Event) (tol : Int) (h0 : 0 ≤ tol) (k : Nat) (g : Event)
    (gs2 : List Event) (hk : G.drop k = g :: gs2) (used : List Nat)
    (hU : ∀ j, j ∈ used ↔ j < k) :
    ∀ (gs : List Event) (m : Nat), m ≤ k → G.drop m = gs →
      scanPreds g tol used (withIdx m gs) none = some (k, g, 0)
  | [], m, hm, hgs => by
    exfalso
    have h1 : G.length ≤ m := List.drop_eq_nil_iff.mp hgs
    have h2 : G.drop k = [] := List.drop_eq_nil_iff.mpr (le_trans h1 hm)
    rw [hk] at h2
    exact List.noConfusion h2
  | p :: ps, m, hm, hgs => by
    have hdropsucc : G.drop (m + 1) = ps := by
      have h3 : G.drop (m + 1) = (G.drop m).drop 1 := by
        rw [List.drop_drop]
      rw [h3, hgs]
      rfl
    rcases Nat.lt_or_ge m k with hlt | hge
    · have hjm : m ∈ used := (hU m).mpr hlt
      show scanPreds g tol used ((m, p) :: withIdx (m + 1) ps) none = some (k, g, 0)
      simp only [scanPreds, if_pos hjm]
      exact scanPreds_finds_self G tol h0 k g gs2 hk used hU ps (m + 1) hlt hdropsucc
    · have hmk : m = k := le_antisymm hm hge
      subst hmk
      rw [hk] at hgs
      injection hgs with hpg hps
      subst hpg
      subst hps
      have hkused : m ∉ used := fun h => absurd ((hU m).mp h) (lt_irrefl m)
      show scanPreds g tol used ((m, g) :: withIdx (m + 1) gs2) none = some (m, g, 0)
      simp only [scanPreds, if_neg hkused]
      rw [if_neg (by simp : ¬ g.athlete ≠ g.athlete)]
      have hbet : better tol (timeDiff g g) none = true := by
        simp [better, timeDiff_self, h0]
      rw [hbet]
      simp only [if_true, timeDiff_self]
      exact scanPreds_stays g tol used (withIdx (m + 1) gs2) m g

theorem matchEventsAux_self (G : List Event) (tol : Int) (h0 : 0 ≤ tol) :
    ∀ (gs : List Event) (k : Nat), G.drop k = gs →
      ∀ (used : List Nat), (∀ j, j ∈ used ↔ j < k) →
      ∃ u, matchEventsAux (withIdx 0 G) tol (withIdx k gs) used =
        ((withIdx k gs).map (fun x => { gt_index := some x.1, pred_index := some x.1,
                                        gt_event := some x.2, pred_event := some x.2 }), u) ∧
        ∀ j, j ∈ u ↔ j < k + gs.length
  | [], k, _, used, hU => ⟨used, rfl, by simpa using hU⟩
  | g :: gs2, k, hk, used, hU => by
    have hscan : scanPreds g tol used (withIdx 0 G) none = some (k, g, 0) :=
      scanPreds_finds_self G tol h0 k g gs2 hk used hU G 0 (Nat.zero_le k) rfl
    have hdropsucc : G.drop (k + 1) = gs2 := by
      have h3 : G.drop (k + 1) = (G.drop k).drop 1 := by rw [List.drop_drop]
      rw [h3, hk]
      rfl
    obtain ⟨u, heq, hu⟩ := matchEventsAux_self G tol h0 gs2 (k + 1) hdropsucc (k :: used)
      (by intro j; simp only [List.mem_cons, hU j]; omega)
    refine ⟨u, ?_, ?_⟩
    · show matchEventsAux (withIdx 0 G) tol ((k, g) :: withIdx (k + 1) gs2) used = _
      simp only [withIdx, matchEventsAux, hscan, heq, List.map_cons]
    · intro j
      rw [hu j]
      simp only [List.length_cons]
      omega

theorem matchEvents_self (G : List Event) (tol : Int) (h0 : 0 ≤ tol) :
    matchEvents G G tol =
      (withIdx 0 G).map (fun x => { gt_index := some x.1, pred_index := some x.1,
                                    gt_event := some x.2, pred_event := some x.2 }) := by
  obtain ⟨u, heq, hu⟩ := matchEventsAux_self G tol h0 G 0 rfl [] (by simp)
  unfold matchEvents
  dsimp only
  rw [heq]
  have hfil : (withIdx 0 G).filter (fun x => decide (x.1 ∉ u)) = [] := by
    rw [List.filter_eq_nil_iff]
    intro x hx
    have hlt : x.1 < 0 + G.length := fst_mem_withIdx_lt hx
    have hmem : x.1 ∈ u := (hu x.1).mpr hlt
    simp [hmem]
  rw [hfil]
  simp

theorem invCount_zero_of_pairwise {l : List MatchResult}
    (h : l.Pairwise (fun a b => predKey a ≤ predKey b)) : invCount l = 0 := by
  induction l with
  | nil => rfl
  | cons m rest ih =>
    rcases List.pairwise_cons.mp h with ⟨hm, ht⟩
    have hfil : rest.filter (fun m2 => decide (predKey m > predKey m2)) = [] := by
      rw [List.filter_eq_nil_iff]
      intro x hx
      have := hm x hx
      simp
      omega
    simp [invCount, hfil, ih ht]

theorem totalPairsCount_pos {l : List MatchResult} (h : 2 ≤ l.length) :
    0 < totalPairsCount l := by
  match l, h with
  | _ :: _ :: _, _ => simp [totalPairsCount]

theorem stableInsert_append (m : MatchResult) :
    ∀ (acc : List MatchResult), (∀ x ∈ acc, ¬ gtKey m < gtKey x) →
      stableInsert m acc = acc ++ [m]
  | [], _ => rfl
  | x :: xs, h => by
    have hx : ¬ gtKey m < gtKey x := h x (List.mem_cons_self _ _)
    simp only [stableInsert, if_neg hx, List.cons_append]
    rw [stableInsert_append m xs (fun y hy => h y (List.mem_cons_of_mem _ hy))]

theorem sortByGt_sorted_aux :
    ∀ (l acc : List MatchResult), (∀ y ∈ l, ∀ x ∈ acc, gtKey x ≤ gtKey y) →
      l.Pairwise (fun a b => gtKey a ≤ gtKey b) →
      List.foldl (fun acc m => stableInsert m acc) acc l = acc ++ l
  | [], acc, _, _ => by simp
  | y :: l2, acc, hcross, hpw => by
    rcases List.pairwise_cons.mp hpw with ⟨hy, ht⟩
    have hins : stableInsert y acc = acc ++ [y] :=
      stableInsert_append y acc
        (fun x hx => not_lt.mpr (hcross y (List.mem_cons_self _ _) x hx))
    have hrec := sortByGt_sorted_aux l2 (acc ++ [y])
      (by
        intro z hz x hx
        rcases List.mem_append.mp hx with h | h
        · exact hcross z (List.mem_cons_of_mem _ hz) x h
        · rcases List.mem_singleton.mp h with rfl
          exact hy z hz)
      ht
    simp only [List.foldl_cons, hins, hrec, List.append_assoc, List.singleton_append]

theorem sortByGt_eq_self {l : List MatchResult}
    (h : l.Pairwise (fun a b => gtKey a ≤ gtKey b)) : sortByGt l = l := by
  have := sortByGt_sorted_aux l [] (by intro y _ x hx; exact absurd hx (List.not_mem_nil x)) h
  simpa [sortByGt] using this

/-- C1 (amended): for every nonempty ground-truth list whose events each have
at least one field present, every prediction list identical to it, and every
tolerance ≥ 0, the alignment is all-matched (every pairing carries both
indices and both events), there are no false negatives or false positives,
precision, recall and F1 are all `1`, `pairs_in_order` is `1`, and there are
no inversions. (The original claim also covered the empty list, where the
zero-denominator convention yields rates of `0`, not `1` — see the
counterexample; an all-fields-absent event is excluded because the detection
counters test dict truthiness, and a negative tolerance rejects even the zero
time difference of identical events.) -/
theorem self_match_perfect_metrics (G : List Event) (tol : Int) (h0 : 0 ≤ tol)
    (hne : G ≠ []) (htr : ∀ e ∈ G, e.isTruthy = true) :
    (∀ m ∈ matchEvents G G tol, m.gt_index.isSome ∧ m.pred_index.isSome ∧
      m.gt_event.isSome ∧ m.pred_event.isSome) ∧
    (computeDetectionMetrics (matchEvents G G tol)).true_positives = G.length ∧
    (computeDetectionMetrics (matchEvents G G tol)).false_negatives = 0 ∧
    (computeDetectionMetrics (matchEvents G G tol)).false_positives = 0 ∧
    (computeDetectionMetrics (matchEvents G G tol)).precision = 1 ∧
    (computeDetectionMetrics (matchEvents G G tol)).«recall» = 1 ∧
    (computeDetectionMetrics (matchEvents G G tol)).f1 = 1 ∧
    (computeSequenceMetrics (matchEvents G G tol)).pairs_in_order = 1 ∧
    (computeSequenceMetrics (matchEvents G G tol)).inversions = 0 := by
  rw [matchEvents_self G tol h0]
  have hmemAll : ∀ m ∈ (withIdx 0 G).map
      (fun x => ({ gt_index := some x.1, pred_index := some x.1,
                   gt_event := some x.2, pred_event := some x.2 } : MatchResult)),
      (truthyOpt m.gt_event && truthyOpt m.pred_event) = true := by
    intro m hm
    rcases List.mem_map.mp hm with ⟨x, hx, rfl⟩
    simp [truthyOpt, htr x.2 (snd_mem_withIdx hx)]
  have htp : tpCount ((withIdx 0 G).map
      (fun x => ({ gt_index := some x.1, pred_index := some x.1,
                   gt_event := some x.2, pred_event := some x.2 } : MatchResult))) = G.length := by
    unfold tpCount
    rw [List.filter_eq_self.mpr hmemAll, List.length_map, withIdx_length]
  have hfn : fnCount ((withIdx 0 G).map
      (fun x => ({ gt_index := some x.1, pred_index := some x.1,
                   gt_event := some x.2, pred_event := some x.2 } : MatchResult))) = 0 := by
    unfold fnCount
    rw [List.filter_eq_nil_iff.mpr ?_]
    · rfl
    · intro m hm hcontra
      have h2 := hmemAll m hm
      rw [Bool.and_eq_true] at h2 hcontra
      rw [h2.2] at hcontra
      exact Bool.noConfusion hcontra.2
  have hfp : fpCount ((withIdx 0 G).map
      (fun x => ({ gt_index := some x.1, pred_index := some x.1,
                   gt_event := some x.2, pred_event := some x.2 } : MatchResult))) = 0 := by
    unfold fpCount
    rw [List.filter_eq_nil_iff.mpr ?_]
    · rfl
    · intro m hm hcontra
      have h2 := hmemAll m hm
      rw [Bool.and_eq_true] at h2 hcontra
      rw [h2.1] at hcontra
      exact Bool.noConfusion hcontra.1
  have hmatched : matchedOf ((withIdx 0 G).map
      (fun x => ({ gt_index := some x.1, pred_index := some x.1,
                   gt_event := some x.2, pred_event := some x.2 } : MatchResult))) =
      (withIdx 0 G).map
      (fun x => ({ gt_index := some x.1, pred_index := some x.1,
                   gt_event := some x.2, pred_event := some x.2 } : MatchResult)) := by
    unfold matchedOf
    exact List.filter_eq_self.mpr (by intro m hm; simpa [isMatchedPair] using hmemAll m hm)
  have hpos : 0 < G.length := List.length_pos.mpr hne
  have hQ : (G.length : ℚ) ≠ 0 := Nat.cast_ne_zero.mpr (Nat.pos_iff_ne_zero.mp hpos)
  have hdet : computeDetectionMetrics ((withIdx 0 G).map
      (fun x => ({ gt_index := some x.1, pred_index := some x.1,
                   gt_event := some x.2, pred_event := some x.2 } : MatchResult))) =
      ⟨G.length, 0, 0, 1, 1, 1⟩ := by
    unfold computeDetectionMetrics
    rw [htp, hfn, hfp]
    simp only [Nat.add_zero, Nat.cast_zero, add_zero, Nat.cast_ofNat]
    rw [if_pos hpos, div_self hQ]
    norm_num
  have hpw : ((withIdx 0 G).map
      (fun x => ({ gt_index := some x.1, pred_index := some x.1,
                   gt_event := some x.2, pred_event := some x.2 } : MatchResult))).Pairwise
      (fun a b => gtKey a ≤ gtKey b) :=
    (withIdx_pairwise_fst_lt 0 G).map _ (fun a b hab => by simp [gtKey]; omega)
  have hppw : ((withIdx 0 G).map
      (fun x => ({ gt_index := some x.1, pred_index := some x.1,
                   gt_event := some x.2, pred_event := some x.2 } : MatchResult))).Pairwise
      (fun a b => predKey a ≤ predKey b) :=
    (withIdx_pairwise_fst_lt 0 G).map _ (fun a b hab => by simp [predKey]; omega)
  have hseq : (computeSequenceMetrics ((withIdx 0 G).map
      (fun x => ({ gt_index := some x.1, pred_index := some x.1,
                   gt_event := some x.2, pred_event := some x.2 } : MatchResult)))).pairs_in_order
        = 1 ∧
      (computeSequenceMetrics ((withIdx 0 G).map
      (fun x => ({ gt_index := some x.1, pred_index := some x.1,
                   gt_event := some x.2, pred_event := some x.2 } : MatchResult)))).inversions
        = 0 := by
    unfold computeSequenceMetrics
    dsimp only
    rw [hmatched]
    by_cases hlen : ((withIdx 0 G).map
        (fun x => ({ gt_index := some x.1, pred_index := some x.1,
                     gt_event := some x.2, pred_event := some x.2 } : MatchResult))).length < 2
    · rw [if_pos hlen]
      exact ⟨rfl, rfl⟩
    · rw [if_neg hlen]
      dsimp only
      rw [sortByGt_eq_self hpw, invCount_zero_of_pairwise hppw]
      have htot : 0 < totalPairsCount ((withIdx 0 G).map
          (fun x => ({ gt_index := some x.1, pred_index := some x.1,
                       gt_event := some x.2, pred_event := some x.2 } : MatchResult))) :=
        totalPairsCount_pos (by omega)
      rw [if_pos htot]
      refine ⟨?_, rfl⟩
      rw [Nat.cast_zero, sub_zero,
        div_self (Nat.cast_ne_zero.mpr (Nat.pos_iff_ne_zero.mp htot))]
  refine ⟨?_, ?_, ?_, ?_, ?_, ?_, ?_, hseq.1, hseq.2⟩
  · intro m hm
    rcases List.mem_map.mp hm with ⟨x, _, rfl⟩
    exact ⟨rfl, rfl, rfl, rfl⟩
  · rw [hdet]
  · rw [hdet]
  · rw [hdet]
  · rw [hdet]
  · rw [hdet]
  · rw [hdet]

/-- C1 (counterexample): for the empty ground truth and the identical empty
prediction list, the zero-denominator convention makes precision `0`, not the
`1.0` asserted by the claim for every identical pair of lists. -/
theorem identical_empty_lists_zero_rates :
    (computeDetectionMetrics (matchEvents ([] : List Event) [] 10)).precision = 0 ∧
    (computeDetectionMetrics (matchEvents ([] : List Event) [] 10)).precision ≠ 1 := by
  have h : matchEvents ([] : List Event) [] 10 = [] := rfl
  rw [h]
  norm_num [computeDetectionMetrics, tpCount, fnCount, fpCount]

/-- C1 witness: a one-event ground truth matched against itself reaches the
amended conclusion at tolerance 10. -/
theorem self_match_perfect_metrics_witness :
    (∀ m ∈ matchEvents [{ athlete := some (.astr "1"), match_clock := some "8:45" }]
        [{ athlete := some (.astr "1"), match_clock := some "8:45" }] 10,
      m.gt_index.isSome ∧ m.pred_index.isSome ∧ m.gt_event.isSome ∧ m.pred_event.isSome) ∧
    (computeDetectionMetrics (matchEvents
        [{ athlete := some (.astr "1"), match_clock := some "8:45" }]
        [{ athlete := some (.astr "1"), match_clock := some "8:45" }] 10)).true_positives =
      [({ athlete := some (.astr "1"), match_clock := some "8:45" } : Event)].length ∧
    (computeDetectionMetrics (matchEvents
        [{ athlete := some (.astr "1"), match_clock := some "8:45" }]
        [{ athlete := some (.astr "1"), match_clock := some "8:45" }] 10)).false_negatives = 0 ∧
    (computeDetectionMetrics (matchEvents
        [{ athlete := some (.astr "1"), match_clock := some "8:45" }]
        [{ athlete := some (.astr "1"), match_clock := some "8:45" }] 10)).false_positives = 0 ∧
    (computeDetectionMetrics (matchEvents
        [{ athlete := some (.astr "1"), match_clock := some "8:45" }]
        [{ athlete := some (.astr "1"), match_clock := some "8:45" }] 10)).precision = 1 ∧
    (computeDetectionMetrics (matchEvents
        [{ athlete := some (.astr "1"), match_clock := some "8:45" }]
        [{ athlete := some (.astr "1"), match_clock := some "8:45" }] 10)).«recall» = 1 ∧
    (computeDetectionMetrics (matchEvents
        [{ athlete := some (.astr "1"), match_clock := some "8:45" }]
        [{ athlete := some (.astr "1"), match_clock := some "8:45" }] 10)).f1 = 1 ∧
    (computeSequenceMetrics (matchEvents
        [{ athlete := some (.astr "1"), match_clock := some "8:45" }]
        [{ athlete := some (.astr "1"), match_clock := some "8:45" }] 10)).pairs_in_order = 1 ∧
    (computeSequenceMetrics (matchEvents
        [{ athlete := some (.astr "1"), match_clock := some "8:45" }]
        [{ athlete := some (.astr "1"), match_clock := some "8:45" }] 10)).inversions = 0 :=
  self_match_perfect_metrics
    [{ athlete := some (.astr "1"), match_clock := some "8:45" }] 10
    (by decide) (by decide) (by decide)

theorem withIdx_map_fst : ∀ (n : Nat) (l : List Event),
    (withIdx n l).map Prod.fst = (List.range l.length).map (· + n)
  | _, [] => rfl
  | n, a :: as => by
    simp only [withIdx, List.map_cons, List.length_cons, List.range_succ_eq_map,
      List.map_map, Nat.zero_add]
    refine List.cons_eq_cons.mpr ⟨rfl, ?_⟩
    rw [withIdx_map_fst (n + 1) as]
    exact List.map_congr_left (fun i _ => by simp [Function.comp, Nat.succ_eq_add_one]; omega)

theorem withIdx_zero_map_fst (l : List Event) :
    (withIdx 0 l).map Prod.fst = List.range l.length := by
  rw [withIdx_map_fst]
  simp

theorem scanPreds_sound (g : Event) (tol : Int) (used : List Nat) :
    ∀ (l : List (Nat × Event)) (best : Option (Nat × Event × Int)) (out : Nat × Event × Int),
      scanPreds g tol used l best = some out →
      best = some out ∨ (out.1 ∉ used ∧ out.1 ∈ l.map Prod.fst)
  | [], _, _, h => Or.inl h
  | (j, p) :: rest, best, out, h => by
    simp only [scanPreds] at h
    by_cases hj : j ∈ used
    · rw [if_pos hj] at h
      rcases scanPreds_sound g tol used rest best out h with h1 | ⟨h2, h3⟩
      · exact Or.inl h1
      · exact Or.inr ⟨h2, by simp only [List.map_cons]; exact List.mem_cons_of_mem _ h3⟩
    · rw [if_neg hj] at h
      by_cases hAth : g.athlete ≠ p.athlete
      · rw [if_pos hAth] at h
        rcases scanPreds_sound g tol used rest best out h with h1 | ⟨h2, h3⟩
        · exact Or.inl h1
        · exact Or.inr ⟨h2, by simp only [List.map_cons]; exact List.mem_cons_of_mem _ h3⟩
      · rw [if_neg hAth] at h
        by_cases hbet : better tol (timeDiff g p) best = true
        · rw [if_pos hbet] at h
          rcases scanPreds_sound g tol used rest (some (j, p, timeDiff g p)) out h with
            h1 | ⟨h2, h3⟩
          · injection h1 with h4
            refine Or.inr ⟨?_, ?_⟩
            · rw [← h4]; exact hj
            · rw [← h4]; simp
          · exact Or.inr ⟨h2, by simp only [List.map_cons]; exact List.mem_cons_of_mem _ h3⟩
        · rw [if_neg hbet] at h
          rcases scanPreds_sound g tol used rest best out h with h1 | ⟨h2, h3⟩
          · exact Or.inl h1
          · exact Or.inr ⟨h2, by simp only [List.map_cons]; exact List.mem_cons_of_mem _ h3⟩

theorem matchEventsAux_spec (ip : List (Nat × Event)) (tol : Int) :
    ∀ (its : List (Nat × Event)) (used : List Nat),
      ∃ js : List Nat,
        (matchEventsAux ip tol its used).2 = js.reverse ++ used ∧
        (matchEventsAux ip tol its used).1.filterMap MatchResult.gt_index = its.map Prod.fst ∧
        (matchEventsAux ip tol its used).1.filterMap MatchResult.pred_index = js ∧
        js.Nodup ∧ (∀ j ∈ js, j ∉ used) ∧ (∀ j ∈ js, j ∈ ip.map Prod.fst)
  | [], used => ⟨[], rfl, rfl, rfl, List.nodup_nil, by simp, by simp⟩
  | (i, g) :: its2, used => by
    cases hscan : scanPreds g tol used ip none with
    | none =>
      obtain ⟨js, h2, hgt, hpred, hnd, hused, hip⟩ := matchEventsAux_spec ip tol its2 used
      refine ⟨js, ?_, ?_, ?_, hnd, hused, hip⟩
      · simpa only [matchEventsAux, hscan] using h2
      · simp only [matchEventsAux, hscan, List.filterMap_cons, List.map_cons]
        rw [hgt]
      · simpa only [matchEventsAux, hscan, List.filterMap_cons] using hpred
    | some out =>
      obtain ⟨j, p, d⟩ := out
      rcases scanPreds_sound g tol used ip none (j, p, d) hscan with h1 | ⟨hju, hjip⟩
      · exact Option.noConfusion h1
      obtain ⟨js, h2, hgt, hpred, hnd, hused, hip⟩ := matchEventsAux_spec ip tol its2 (j :: used)
      refine ⟨j :: js, ?_, ?_, ?_, ?_, ?_, ?_⟩
      · simp only [matchEventsAux, hscan, h2, List.reverse_cons, List.append_assoc,
          List.singleton_append]
      · simp only [matchEventsAux, hscan, List.filterMap_cons, List.map_cons]
        rw [hgt]
      · simp only [matchEventsAux, hscan, List.filterMap_cons]
        rw [hpred]
      · exact List.nodup_cons.mpr
          ⟨fun hmem => (hused j hmem) (List.mem_cons_self j used), hnd⟩
      · intro x hx
        rcases List.mem_cons.mp hx with rfl | hx2
        · exact hju
        · exact fun hxu => (hused x hx2) (List.mem_cons_of_mem _ hxu)
      · intro x hx
        rcases List.mem_cons.mp hx with rfl | hx2
        · exact hjip
        · exact hip x hx2

theorem filterMap_gt_fpmap (l : List (Nat × Event)) :
    (l.map (fun x => ({ gt_index := none, pred_index := some x.1, gt_event := none,
                        pred_event := some x.2 } : MatchResult))).filterMap
      MatchResult.gt_index = [] := by
  induction l with
  | nil => rfl
  | cons a rest ih => simp [List.filterMap_cons, ih]

theorem filterMap_pred_fpmap (l : List (Nat × Event)) :
    (l.map (fun x => ({ gt_index := none, pred_index := some x.1, gt_event := none,
                        pred_event := some x.2 } : MatchResult))).filterMap
      MatchResult.pred_index = l.map Prod.fst := by
  induction l with
  | nil => rfl
  | cons a rest ih => simpa [List.filterMap_cons] using ih

theorem map_fst_filter_key (q : Nat → Bool) :
    ∀ (l : List (Nat × Event)),
      (l.filter (fun x => q x.1)).map Prod.fst = (l.map Prod.fst).filter q
  | [] => rfl
  | (j, p) :: rest => by
    by_cases hq : q j
    · simp [List.filter_cons, hq, map_fst_filter_key q rest]
    · simp [List.filter_cons, hq, map_fst_filter_key q rest]

theorem consumed_append_rest_perm {js l : List Nat} (hnd : js.Nodup) (hl : l.Nodup)
    (hsub : ∀ j ∈ js, j ∈ l) :
    (js ++ l.filter (fun j => decide (j ∉ js))).Perm l := by
  rw [List.perm_iff_count]
  intro a
  rw [List.count_append]
  by_cases ha : a ∈ js
  · have h2 : a ∉ l.filter (fun j => decide (j ∉ js)) := by
      intro hmem
      have h3 := List.mem_filter.mp hmem
      simp only [decide_eq_true_eq] at h3
      exact h3.2 ha
    rw [List.count_eq_one_of_mem hnd ha, List.count_eq_zero_of_not_mem h2,
      List.count_eq_one_of_mem hl (hsub a ha)]
  · rw [List.count_eq_zero_of_not_mem ha, List.count_filter (by simpa using ha), Nat.zero_add]

/-- C3: the alignment invariants hold for every pair of event lists and every
tolerance: reading off the ground-truth indices of the pairings, in order,
gives exactly `0, …, len(gt)-1` (each ground-truth index is in exactly one
pairing), and the prediction indices of the pairings form a permutation of
`0, …, len(pred)-1` (each prediction index is in exactly one pairing, so no
prediction is consumed by more than one ground-truth pairing). -/
theorem matchEvents_alignment_invariants (G P : List Event) (tol : Int) :
    (matchEvents G P tol).filterMap MatchResult.gt_index = List.range G.length ∧
    ((matchEvents G P tol).filterMap MatchResult.pred_index).Perm (List.range P.length) := by
  obtain ⟨js, h2, hgt, hpred, hnd, _, hip⟩ :=
    matchEventsAux_spec (withIdx 0 P) tol (withIdx 0 G) []
  rw [List.append_nil] at h2
  unfold matchEvents
  dsimp only
  constructor
  · rw [List.filterMap_append, hgt, withIdx_zero_map_fst, filterMap_gt_fpmap,
      List.append_nil]
  · rw [List.filterMap_append, hpred, filterMap_pred_fpmap,
      map_fst_filter_key
        (fun j => decide (j ∉ (matchEventsAux (withIdx 0 P) tol (withIdx 0 G) []).2))
        (withIdx 0 P),
      withIdx_zero_map_fst, h2]
    have hcong : (List.range P.length).filter (fun j => decide (j ∉ js.reverse)) =
        (List.range P.length).filter (fun j => decide (j ∉ js)) :=
      List.filter_congr (fun x _ => by simp [List.mem_reverse])
    rw [hcong]
    refine consumed_append_rest_perm hnd (List.nodup_range P.length) ?_
    intro j hj
    have := hip j hj
    rwa [withIdx_zero_map_fst] at this

end MatchAnalysis
